import Mathlib

/-!
# Hyprland: window entity header and virtual-keyboard protocol

A shallow embedding of `src/desktop/Window.hpp` and
`src/protocols/VirtualKeyboard.cpp`, followed by the properties proved of it.

Conventions of the embedding.
* `uint32_t` request arguments are natural numbers; the handlers only store,
  compare and forward them, no arithmetic is done on them.
* A signal emission or a message to the client is an element of an output list,
  in program order.
* Calls into libraries (xkbcommon, `mmap`, wayland resource creation) are
  represented by their outcome, supplied as an argument.
-/

namespace Hyprland

/-! ## Virtual keyboard (`src/protocols/VirtualKeyboard.cpp`) -/

/-- Payload of `IKeyboard::SKeyEvent`, as filled in by the handlers. -/
structure SKeyEvent where
  timeMs : Nat
  keycode : Nat
  state : Nat
  deriving DecidableEq, Repr

/-- Payload of `IKeyboard::SModifiersEvent`. -/
structure SModifiersEvent where
  depressed : Nat
  latched : Nat
  locked : Nat
  group : Nat
  deriving DecidableEq, Repr

/-- Payload of `IKeyboard::SKeymapEvent`: the handle of the compiled keymap. -/
structure SKeymapEvent where
  keymap : Nat
  deriving DecidableEq, Repr

/-- Error codes of the `zwp_virtual_keyboard_v1` interface used by the handlers. -/
inductive eVirtualKeyboardError where
  | ZWP_VIRTUAL_KEYBOARD_V1_ERROR_NO_KEYMAP
  deriving DecidableEq, Repr

/-- What a handler of a keyboard resource does to the outside, in program order:
signal emissions (`events.*.emit`) and messages to the client (`r->error`,
`r->noMemory`). -/
inductive Effect where
  | key (e : SKeyEvent)
  | modifiers (e : SModifiersEvent)
  | keymap (e : SKeymapEvent)
  | destroy
  | error (code : eVirtualKeyboardError) (msg : String)
  | noMemory
  deriving DecidableEq, Repr

/-- The members of `CVirtualKeyboardV1Resource` the handlers read or write.
`resource` is the underlying `wl_resource` (`none` when its creation failed). -/
structure CVirtualKeyboardV1Resource where
  resource : Option Nat
  name : String
  hasKeymap : Bool
  pressed : List Nat
  deriving DecidableEq, Repr

namespace CVirtualKeyboardV1Resource

/-- `good()`: the wayland resource exists. -/
def good (kb : CVirtualKeyboardV1Resource) : Bool :=
  kb.resource.isSome

/-- The constructor: when the resource is not good it returns before anything
is set up; otherwise the handlers are installed and the name is set. -/
def create (resource_ : Option Nat) : CVirtualKeyboardV1Resource :=
  let kb : CVirtualKeyboardV1Resource :=
    { resource := resource_, name := "", hasKeymap := false, pressed := [] }
  if !kb.good then kb
  else { kb with name := "hl-virtual-keyboard" }

/-- The `setKey` handler (lines 22-39). `std::find` is list membership,
`emplace_back` appends, `std::erase` removes every occurrence. -/
def setKey (kb : CVirtualKeyboardV1Resource) (timeMs key state : Nat) :
    CVirtualKeyboardV1Resource × List Effect :=
  if !kb.hasKeymap then
    (kb, [Effect.error eVirtualKeyboardError.ZWP_VIRTUAL_KEYBOARD_V1_ERROR_NO_KEYMAP
            "Key event received before a keymap was set"])
  else
    let ev := Effect.key { timeMs := timeMs, keycode := key, state := state }
    let CONTAINS : Bool := kb.pressed.contains key
    if state != 0 && !CONTAINS then
      ({ kb with pressed := kb.pressed ++ [key] }, [ev])
    else if !(state != 0) && CONTAINS then
      ({ kb with pressed := kb.pressed.filter (fun p => p != key) }, [ev])
    else
      (kb, [ev])

/-- The `setModifiers` handler (lines 41-53). -/
def setModifiers (kb : CVirtualKeyboardV1Resource) (depressed latched locked group : Nat) :
    CVirtualKeyboardV1Resource × List Effect :=
  if !kb.hasKeymap then
    (kb, [Effect.error eVirtualKeyboardError.ZWP_VIRTUAL_KEYBOARD_V1_ERROR_NO_KEYMAP
            "Mods event received before a keymap was set"])
  else
    (kb, [Effect.modifiers
            { depressed := depressed, latched := latched, locked := locked, group := group }])

/-- Outcomes of the three library calls of the `setKeymap` handler:
`xkb_context_new` (`none` for a null context), `mmap` of the transferred
descriptor (`none` for `MAP_FAILED`, otherwise the mapped text) and
`xkb_keymap_new_from_string` (`none` for a null keymap). -/
structure KeymapCalls where
  xkb_context_new : Option Nat
  mmap : Int → Nat → Option String
  xkb_keymap_new_from_string : Nat → String → Option Nat

/-- The `setKeymap` handler (lines 55-89). Logging and the release of the
context, the mapping and the keymap have no effect on the modelled state. -/
def setKeymap (calls : KeymapCalls) (kb : CVirtualKeyboardV1Resource) (_fmt : Nat) (fd : Int)
    (len : Nat) : CVirtualKeyboardV1Resource × List Effect :=
  match calls.xkb_context_new with
  | none => (kb, [Effect.noMemory])
  | some xkbContext =>
    match calls.mmap fd len with
    | none => (kb, [Effect.noMemory])
    | some keymapData =>
      match calls.xkb_keymap_new_from_string xkbContext keymapData with
      | none => (kb, [Effect.noMemory])
      | some xkbKeymap =>
        ({ kb with hasKeymap := true }, [Effect.keymap { keymap := xkbKeymap }])

end CVirtualKeyboardV1Resource

/-- What `onCreateKeeb` does to the outside: the out-of-memory message to the
client of the manager, or the `newKeyboard` signal carrying the keyboard. -/
inductive ProtocolEffect where
  | noMemory
  | newKeyboard (kb : CVirtualKeyboardV1Resource)
  deriving DecidableEq, Repr

/-- The member of `CVirtualKeyboardProtocol` that `onCreateKeeb` writes. -/
structure CVirtualKeyboardProtocol where
  m_vKeyboards : List CVirtualKeyboardV1Resource
  deriving DecidableEq, Repr

namespace CVirtualKeyboardProtocol

/-- `onCreateKeeb` (lines 137-150). `wlResource` is the outcome of creating the
`CZwpVirtualKeyboardV1` wayland resource for the requested id. The keyboard is
first appended, and popped again when it is not good. -/
def onCreateKeeb (p : CVirtualKeyboardProtocol) (wlResource : Option Nat) :
    CVirtualKeyboardProtocol × List ProtocolEffect :=
  let RESOURCE := CVirtualKeyboardV1Resource.create wlResource
  let p1 : CVirtualKeyboardProtocol := { p with m_vKeyboards := p.m_vKeyboards ++ [RESOURCE] }
  if !RESOURCE.good then
    ({ p1 with m_vKeyboards := p1.m_vKeyboards.dropLast }, [ProtocolEffect.noMemory])
  else
    (p1, [ProtocolEffect.newKeyboard RESOURCE])

end CVirtualKeyboardProtocol

/-! ## Window entity (`src/desktop/Window.hpp`) -/

/-- Modelled from the spec: the enumeration `eFullscreenMode` is declared in a
header that is not among the sources. `Window.hpp` names `FSMODE_NONE`; the
spec names the maximized and the fullscreen mode. -/
inductive eFullscreenMode where
  | FSMODE_NONE
  | FSMODE_MAXIMIZED
  | FSMODE_FULLSCREEN
  deriving DecidableEq, Repr

open eFullscreenMode

/-- `SFullscreenState` (lines 131-134) with its default member initialisers. -/
structure SFullscreenState where
  internal : eFullscreenMode := FSMODE_NONE
  client : eFullscreenMode := FSMODE_NONE
  deriving DecidableEq, Repr

namespace SFullscreenState

/-- The assignment `s.internal = m`. -/
def writeInternal (s : SFullscreenState) (m : eFullscreenMode) : SFullscreenState :=
  { s with internal := m }

/-- The assignment `s.client = m`. -/
def writeClient (s : SFullscreenState) (m : eFullscreenMode) : SFullscreenState :=
  { s with client := m }

end SFullscreenState

/-! ### Flag enumerations (lines 35-65) -/

def GROUP_NONE : Nat := 0
def GROUP_SET : Nat := 1 <<< 0
def GROUP_SET_ALWAYS : Nat := 1 <<< 1
def GROUP_BARRED : Nat := 1 <<< 2
def GROUP_LOCK : Nat := 1 <<< 3
def GROUP_LOCK_ALWAYS : Nat := 1 <<< 4
def GROUP_INVADE : Nat := 1 <<< 5
def GROUP_OVERRIDE : Nat := 1 <<< 6

def WINDOW_ONLY : Nat := 0
def RESERVED_EXTENTS : Nat := 1 <<< 0
def INPUT_EXTENTS : Nat := 1 <<< 1
def FULL_EXTENTS : Nat := 1 <<< 2
def FLOATING_ONLY : Nat := 1 <<< 3
def ALLOW_FLOATING : Nat := 1 <<< 4
def USE_PROP_TILED : Nat := 1 <<< 5
def SKIP_FULLSCREEN_PRIORITY : Nat := 1 <<< 6

def SUPPRESS_NONE : Nat := 0
def SUPPRESS_FULLSCREEN : Nat := 1 <<< 0
def SUPPRESS_MAXIMIZE : Nat := 1 <<< 1
def SUPPRESS_ACTIVATE : Nat := 1 <<< 2
def SUPPRESS_ACTIVATE_FOCUSONLY : Nat := 1 <<< 3
def SUPPRESS_FULLSCREEN_OUTPUT : Nat := 1 <<< 4

/-- The three flag enumerations of `Window.hpp`. -/
inductive FlagEnum where
  | eGroupRules
  | eGetWindowProperties
  | eSuppressEvents
  deriving DecidableEq, Repr

namespace FlagEnum

/-- The enumerator with value zero. -/
def zero : FlagEnum → Nat
  | eGroupRules => GROUP_NONE
  | eGetWindowProperties => WINDOW_ONLY
  | eSuppressEvents => SUPPRESS_NONE

/-- The non-zero enumerators, in declaration order. -/
def flags : FlagEnum → List Nat
  | eGroupRules =>
    [GROUP_SET, GROUP_SET_ALWAYS, GROUP_BARRED, GROUP_LOCK, GROUP_LOCK_ALWAYS, GROUP_INVADE,
      GROUP_OVERRIDE]
  | eGetWindowProperties =>
    [RESERVED_EXTENTS, INPUT_EXTENTS, FULL_EXTENTS, FLOATING_ONLY, ALLOW_FLOATING,
      USE_PROP_TILED, SKIP_FULLSCREEN_PRIORITY]
  | eSuppressEvents =>
    [SUPPRESS_FULLSCREEN, SUPPRESS_MAXIMIZE, SUPPRESS_ACTIVATE, SUPPRESS_ACTIVATE_FOCUSONLY,
      SUPPRESS_FULLSCREEN_OUTPUT]

/-- Width in bits of the underlying type of the enumeration (`uint8_t`). -/
def enumBits : FlagEnum → Nat
  | _ => 8

/-- Width in bits of the variable that holds a mask of the enumeration:
`uint16_t m_eGroupRules`, `uint64_t props` of `getWindowBoxUnified`,
`uint64_t m_eSuppressedEvents`. -/
def storageBits : FlagEnum → Nat
  | eGroupRules => 16
  | eGetWindowProperties => 64
  | eSuppressEvents => 64

end FlagEnum

/-- Conversion of a value to an unsigned integer type of `bits` bits. -/
def truncate (bits : Nat) (v : Nat) : Nat :=
  v % 2 ^ bits

/-- Bitwise OR of the flags of `S`. -/
def maskOf (S : List Nat) : Nat :=
  S.foldr (fun f m => f ||| m) 0

/-- The test `(m & f) != 0`. -/
def hasFlag (m f : Nat) : Bool :=
  (m &&& f) != 0

/-! ### The window and references to it -/

/-- The members of `CWindow` used below, with their default member
initialisers. `m_pWorkspace` is `none` for a null workspace pointer. -/
structure CWindow where
  m_bIsFloating : Bool := false
  m_sFullscreenState : SFullscreenState := { internal := FSMODE_NONE, client := FSMODE_NONE }
  m_szTitle : String := ""
  m_szClass : String := ""
  m_pWorkspace : Option Nat := none
  m_bIsMapped : Bool := false
  m_eSuppressedEvents : Nat := SUPPRESS_NONE
  m_eGroupRules : Nat := GROUP_NONE
  deriving DecidableEq, Repr

/-- A live window object: its address and its contents. -/
structure WindowObject where
  addr : Nat
  window : CWindow
  deriving DecidableEq, Repr

/-- `PHLWINDOW`, a shared pointer to a window: null or a live object. -/
abbrev PHLWINDOW := Option WindowObject

/-- `PHLWINDOWREF`, a weak pointer to a window: never assigned, pointing to a
window that has been destroyed since, or pointing to a live window. -/
inductive PHLWINDOWREF where
  | null
  | dead (addr : Nat)
  | live (obj : WindowObject)
  deriving DecidableEq, Repr

namespace PHLWINDOWREF

/-- `w.expired()`: there is no live object behind the reference. -/
def expired : PHLWINDOWREF → Bool
  | null => true
  | dead _ => true
  | live _ => false

/-- `w->`: access to the window, undefined (`none`) without a live object. -/
def deref : PHLWINDOWREF → Option CWindow
  | live obj => some obj.window
  | _ => none

end PHLWINDOWREF

/-- `w.get()` as an address: zero for the null pointer. -/
def PHLWINDOW.get (w : PHLWINDOW) : Nat :=
  match w with
  | none => 0
  | some obj => obj.addr

/-- `w->`: access to the window, undefined (`none`) for the null pointer. -/
def PHLWINDOW.deref (w : PHLWINDOW) : Option CWindow :=
  w.map (fun obj => obj.window)

/-- `valid(PHLWINDOW)` (line 448): the pointer is not null. -/
def valid (w : PHLWINDOW) : Bool :=
  w.isSome

/-- `valid(PHLWINDOWREF)` (line 452). -/
def validRef (w : PHLWINDOWREF) : Bool :=
  !w.expired

/-- `validMapped(PHLWINDOW)` (line 456). The result is `none` when the function
would read through a pointer without an object. -/
def validMapped (w : PHLWINDOW) : Option Bool :=
  if !valid w then some false
  else w.deref.map (fun win => win.m_bIsMapped)

/-- `validMapped(PHLWINDOWREF)` (line 462), with the same convention. -/
def validMappedRef (w : PHLWINDOWREF) : Option Bool :=
  if !validRef w then some false
  else w.deref.map (fun win => win.m_bIsMapped)

/-! ### Formatting a window handle (lines 505-544) -/

/-- The flags of `std::formatter<PHLWINDOW, CharT>` with their initial values. -/
structure WindowFormatter where
  formatAddressOnly : Bool := false
  formatWorkspace : Bool := false
  formatMonitor : Bool := false
  formatClass : Bool := false
  deriving DecidableEq, Repr

/-- The methods and the constant that `format` uses and that are defined
outside `Window.hpp`: `CWindow::workspaceID()`, `CWindow::monitorID()` and
`WORKSPACE_INVALID`. -/
structure WindowIds where
  workspaceID : CWindow → Int
  monitorID : CWindow → Int
  WORKSPACE_INVALID : Int

/-- Output of the replacement field of `std::format` with type `x` for an
unsigned integer: lower-case hexadecimal digits without a base marker. -/
def formatHex (n : Nat) : String :=
  String.mk (Nat.toDigits 16 n)

/-- Output of the default replacement field of `std::format` for a signed
integer: decimal digits, preceded by a minus sign when negative. -/
def formatInt (i : Int) : String :=
  toString i

namespace WindowFormatter

/-- Modelled from the spec: the macros `FORMAT_PARSE` and `FORMAT_FLAG` are
defined in `macros.hpp`, which is not among the sources. Following the format
specification comment of `Window.hpp` (lines 505-511) and their use at lines
519-524, the flag characters are read up to the closing brace, each of
`x`, `m`, `w`, `c` sets its flag, and any other character is rejected
(`none`). -/
def parse : List Char → WindowFormatter → Option WindowFormatter
  | [], f => some f
  | ch :: rest, f =>
    if ch = '\x7d' then some f
    else if ch = 'x' then parse rest { f with formatAddressOnly := true }
    else if ch = 'm' then parse rest { f with formatMonitor := true }
    else if ch = 'w' then parse rest { f with formatWorkspace := true }
    else if ch = 'c' then parse rest { f with formatClass := true }
    else none

/-- The function `format` (lines 527-543): every `std::format_to(out, ...)` appends
to the output `out`. The window is only read after the null test. -/
def format (ids : WindowIds) (f : WindowFormatter) (w : PHLWINDOW) (out : String) : String :=
  if f.formatAddressOnly then out ++ formatHex w.get
  else
    match w with
    | none => out ++ "[Window nullptr]"
    | some obj =>
      let out := out ++ "["
      let out := out ++ ("Window " ++ formatHex obj.addr ++ ": title: \"" ++ obj.window.m_szTitle
        ++ "\"")
      let out :=
        if f.formatWorkspace then
          out ++ (", workspace: " ++ formatInt
            (if obj.window.m_pWorkspace.isSome then ids.workspaceID obj.window
             else ids.WORKSPACE_INVALID))
        else out
      let out :=
        if f.formatMonitor then out ++ (", monitor: " ++ formatInt (ids.monitorID obj.window))
        else out
      let out :=
        if f.formatClass then out ++ (", class: " ++ obj.window.m_szClass)
        else out
      out ++ "]"

end WindowFormatter

/-- The part of the format specification read by `parse`: the characters before
the first closing brace. -/
def specChars (spec : List Char) : List Char :=
  spec.takeWhile (fun ch => ch != '\x7d')

/-- The documented output for a window handle, written after the format
specification comment: `x` address only, `w` workspace id, `m` monitor id,
`c` application class. -/
def documentedFormat (ids : WindowIds) (x w m c : Bool) (h : PHLWINDOW) : String :=
  if x then formatHex h.get
  else
    match h with
    | none => "[Window nullptr]"
    | some obj =>
      "[Window " ++ formatHex obj.addr ++ ": title: \"" ++ obj.window.m_szTitle ++ "\""
        ++ (if w then ", workspace: " ++ formatInt
              (match obj.window.m_pWorkspace with
               | some _ => ids.workspaceID obj.window
               | none => ids.WORKSPACE_INVALID)
            else "")
        ++ (if m then ", monitor: " ++ formatInt (ids.monitorID obj.window) else "")
        ++ (if c then ", class: " ++ obj.window.m_szClass else "")
        ++ "]"

/-! ### Resize negotiation -/

/-- `Vector2D` as used for reported sizes. The sizes are only stored, copied
and compared, so the coordinates are taken to be integers. -/
structure Vector2D where
  x : Int
  y : Int
  deriving DecidableEq, Repr

/-- The members of `CWindow` that take part in the resize negotiation
(lines 165-170). `m_pPendingSizeAck` holds the acknowledged request, which
carries the committed serial. -/
structure ResizeState where
  m_vReportedSize : Vector2D
  m_pPendingSizeAck : Option (Nat × Vector2D)
  m_vPendingSizeAcks : List (Nat × Vector2D)
  deriving DecidableEq, Repr

namespace ResizeState

/-- State of a window before any resize request. -/
def initial (size : Vector2D) : ResizeState :=
  { m_vReportedSize := size, m_pPendingSizeAck := none, m_vPendingSizeAcks := [] }

/-- Modelled from the spec: `CWindow::sendWindowSize` is defined in
`Window.cpp`, which is not among the sources. A new request (the serial handed
out for it, the current target size) is issued only if the target differs
from the last reported size or `force` is set; the request is appended to the
pending queue. -/
def sendWindowSize (st : ResizeState) (force : Bool) (serial : Nat) (target : Vector2D) :
    ResizeState :=
  if force || target != st.m_vReportedSize then
    { st with m_vPendingSizeAcks := st.m_vPendingSizeAcks ++ [(serial, target)] }
  else st

/-- The serial is smaller than the already-committed serial. -/
def staleAck (st : ResizeState) (serial : Nat) : Bool :=
  match st.m_pPendingSizeAck with
  | some committed => decide (serial < committed.1)
  | none => false

/-- Modelled from the spec: `CWindow::onAck` is defined in `Window.cpp`, which
is not among the sources. An acknowledgement whose serial is smaller than the
already-committed serial is a no-op. Otherwise every pending entry with serial
at most the acknowledged serial is discarded, and the size paired with the
exact matched serial becomes the new committed reported size. -/
def onAck (st : ResizeState) (serial : Nat) : ResizeState :=
  if st.staleAck serial then st
  else
    let rest := st.m_vPendingSizeAcks.filter (fun e => decide (serial < e.1))
    match st.m_vPendingSizeAcks.find? (fun e => e.1 == serial) with
    | some e =>
      { m_vReportedSize := e.2, m_pPendingSizeAck := some e, m_vPendingSizeAcks := rest }
    | none => { st with m_vPendingSizeAcks := rest }

/-- Pending serials are strictly increasing in queue order and all of them are
greater than the committed serial. -/
def Monotonic (st : ResizeState) : Prop :=
  st.m_vPendingSizeAcks.Pairwise (fun a b => a.1 < b.1) ∧
    ∀ c, st.m_pPendingSizeAck = some c → ∀ e ∈ st.m_vPendingSizeAcks, c.1 < e.1

/-- A serial that is new for the window: greater than the committed serial and
than every pending serial. -/
def Fresh (st : ResizeState) (serial : Nat) : Prop :=
  (∀ c, st.m_pPendingSizeAck = some c → c.1 < serial) ∧
    ∀ e ∈ st.m_vPendingSizeAcks, e.1 < serial

end ResizeState

/-! ### Groups -/

/-- `CWindow::SGroupData` (lines 298-303). A window is referred to by its number;
`pNextWindow` is `none` for the null reference. -/
structure SGroupData where
  pNextWindow : Option Nat := none
  head : Bool := false
  locked : Bool := false
  deny : Bool := false
  deriving DecidableEq, Repr

/-- The group members of the windows of the compositor (lines 298-304): there
are `count` windows, numbered from zero, each with its `m_sGroupData` and its
`m_eGroupRules`. -/
structure Windows where
  count : Nat
  m_sGroupData : Nat → SGroupData
  m_eGroupRules : Nat → Nat

namespace Windows

/-- The `pNextWindow` link of window `w`. -/
def nextOf (ws : Windows) (w : Nat) : Option Nat :=
  (ws.m_sGroupData w).pNextWindow

/-- Assignment to the group data of window `w`. -/
def setGroupData (ws : Windows) (w : Nat) (d : SGroupData) : Windows :=
  { ws with m_sGroupData := fun v => if v = w then d else ws.m_sGroupData v }

/-- The windows met from `curr` by following `pNextWindow` until the link leads
back to `start` (or is null, or `fuel` windows have been met). -/
def walk (ws : Windows) (start : Nat) : Nat → Nat → List Nat
  | 0, _ => []
  | fuel + 1, curr =>
    curr :: (match ws.nextOf curr with
      | none => []
      | some n => if n = start then [] else walk ws start fuel n)

/-- The members of the group of `w`, starting with `w`; empty for a window in
no group. -/
def groupMembers (ws : Windows) (w : Nat) : List Nat :=
  match ws.nextOf w with
  | none => []
  | some _ => ws.walk w ws.count w

/-- Modelled from the spec: `CWindow::createGroup` (declared at line 371) is
defined in `Window.cpp`, which is not among the sources. Called on a window
`self` that is in no group, it forms a singleton ring (self-next,
`head=true`). The spec does not describe the call on a window that already is
in a group; the result is then left undefined (`none`). -/
def createGroup (ws : Windows) (self : Nat) : Option Windows :=
  if self < ws.count ∧ ws.nextOf self = none then
    some (ws.setGroupData self
      { ws.m_sGroupData self with pNextWindow := some self, head := true })
  else none

/-- Modelled from the spec: `CWindow::insertWindowToGroup` (declared at line 381)
is defined in `Window.cpp`, which is not among the sources. Called on the
target `self`, a window of a ring, it splices the window `pWindow`, which is
in no group, into the ring immediately after `self`; it is rejected as a no-op
if the target's group is locked and the caller lacks INVADE, or if the target's
group denies insertion. The lock and the denial of a group are those of its
members, and INVADE is the rule `GROUP_INVADE` of the inserted window. The spec
does not describe the call with a target that has no ring or with a window
that is already linked; the result is then left undefined (`none`). -/
def insertWindowToGroup (ws : Windows) (self pWindow : Nat) : Option Windows :=
  if self < ws.count ∧ pWindow < ws.count ∧ ws.nextOf pWindow = none ∧ ws.nextOf self ≠ none then
    let members := ws.groupMembers self
    let invade := hasFlag (ws.m_eGroupRules pWindow) GROUP_INVADE
    if (members.any (fun v => (ws.m_sGroupData v).locked) && !invade)
        || members.any (fun v => (ws.m_sGroupData v).deny) then some ws
    else
      let ws1 := ws.setGroupData pWindow
        { ws.m_sGroupData pWindow with pNextWindow := ws.nextOf self }
      some (ws1.setGroupData self { ws1.m_sGroupData self with pNextWindow := some pWindow })
  else none

/-- Modelled from the spec: `CWindow::destroyGroup` (declared at line 372) is
defined in `Window.cpp`, which is not among the sources. It unlinks every
member of the group of the window `self` back to standalone; a window in no
group has no member to unlink. The result is undefined (`none`) only for a
window that does not exist. -/
def destroyGroup (ws : Windows) (self : Nat) : Option Windows :=
  if self < ws.count then
    let members := ws.groupMembers self
    some { ws with
      m_sGroupData := fun v =>
        if v ∈ members then { ws.m_sGroupData v with pNextWindow := none }
        else ws.m_sGroupData v }
  else none

end Windows

namespace Windows

end Windows

/-! ### Virtual keyboard: releasing keys, destruction, request sequences -/

/-- `WL_KEYBOARD_KEY_STATE_RELEASED` of the wayland protocol. -/
def WL_KEYBOARD_KEY_STATE_RELEASED : Nat := 0

namespace CVirtualKeyboardV1Resource

/-- The loop of `releasePressed` (lines 107-113) over the remaining keys:
one key event per entry, in list order. `clock i` is the reading of the steady
clock, in milliseconds, taken for emission number `i`. -/
def releaseEvents (clock : Nat → Nat) : Nat → List Nat → List Effect
  | _, [] => []
  | i, p :: rest =>
    Effect.key { timeMs := clock i, keycode := p, state := WL_KEYBOARD_KEY_STATE_RELEASED }
      :: releaseEvents clock (i + 1) rest

/-- `releasePressed` (lines 106-116): the loop, then `pressed.clear()`. -/
def releasePressed (kb : CVirtualKeyboardV1Resource) (clock : Nat → Nat) :
    CVirtualKeyboardV1Resource × List Effect :=
  ({ kb with pressed := [] }, releaseEvents clock 0 kb.pressed)

/-- What a keyboard resource is asked to do: the three requests of the client
and a call of `releasePressed`. -/
inductive Request where
  | key (timeMs key state : Nat)
  | modifiers (depressed latched locked group : Nat)
  | keymap (calls : KeymapCalls) (fmt : Nat) (fd : Int) (len : Nat)
  | releasePressed (clock : Nat → Nat)

/-- The handler run for one request. -/
def handle (kb : CVirtualKeyboardV1Resource) :
    Request → CVirtualKeyboardV1Resource × List Effect
  | Request.key timeMs key state => kb.setKey timeMs key state
  | Request.modifiers depressed latched locked group =>
    kb.setModifiers depressed latched locked group
  | Request.keymap calls fmt fd len => kb.setKeymap calls fmt fd len
  | Request.releasePressed clock => kb.releasePressed clock

/-- The handlers run for a sequence of requests, first request first; the
outputs are concatenated in order. -/
def handleAll (kb : CVirtualKeyboardV1Resource) :
    List Request → CVirtualKeyboardV1Resource × List Effect
  | [] => (kb, [])
  | r :: rest =>
    let first := kb.handle r
    let others := first.1.handleAll rest
    (others.1, first.2 ++ others.2)

end CVirtualKeyboardV1Resource

/-- Reading of a sequence of emissions for one keycode `k`: starting from
`held`, every key event for `k` makes the key held if its state is non-zero
and released otherwise. -/
def heldFrom (k : Nat) (held : Bool) (trace : List Effect) : Bool :=
  trace.foldl
    (fun h e =>
      match e with
      | Effect.key ev => if ev.keycode = k then ev.state != 0 else h
      | _ => h)
    held

namespace CVirtualKeyboardProtocol

/-- `destroyResource` (lines 133-135). A keyboard object is identified by the
wayland resource it owns. -/
def destroyResource (p : CVirtualKeyboardProtocol) (keeb : CVirtualKeyboardV1Resource) :
    CVirtualKeyboardProtocol :=
  { p with m_vKeyboards := p.m_vKeyboards.filter (fun other => other.resource != keeb.resource) }

/-- The `setDestroy` / `setOnDestroy` handler of a keyboard (lines 11-20):
`releasePressed()`, `events.destroy.emit()`, `destroyResource(this)`. When the
list entry erased by `destroyResource` was the last owner of the keyboard
(`lastOwner`), its destructor (lines 94-96) emits `destroy` once more. -/
def onKeyboardDestroy (p : CVirtualKeyboardProtocol) (keeb : CVirtualKeyboardV1Resource)
    (clock : Nat → Nat) (lastOwner : Bool) :
    CVirtualKeyboardProtocol × CVirtualKeyboardV1Resource × List Effect :=
  let r := keeb.releasePressed clock
  let out := r.2 ++ [Effect.destroy]
  let p1 := p.destroyResource r.1
  (p1, r.1, if lastOwner then out ++ [Effect.destroy] else out)

end CVirtualKeyboardProtocol

/-! ### Window properties by name (lines 81-124 and 468-503) -/

/-- The `CWindowOverridableVar<bool>` members of `SWindowData` (lines 86-107 and
123), in declaration order. The member `opaque` is written `opaque_`. -/
inductive BoolMember where
  | allowsInput
  | dimAround
  | decorate
  | focusOnActivate
  | keepAspectRatio
  | nearestNeighbor
  | noAnim
  | noBorder
  | noBlur
  | noDim
  | noFocus
  | noMaxSize
  | noRounding
  | noShadow
  | noShortcutsInhibit
  | opaque_
  | RGBX
  | syncFullscreen
  | tearing
  | xray
  | renderUnfocused
  | noFollowMouse
  | persistentSize
  deriving DecidableEq, Repr

/-- The `CWindowOverridableVar<Hyprlang::INT>` members of `SWindowData`
(lines 109-110). -/
inductive IntMember where
  | borderSize
  | rounding
  deriving DecidableEq, Repr

/-- The `CWindowOverridableVar<Hyprlang::FLOAT>` members of `SWindowData`
(lines 112-114). -/
inductive FloatMember where
  | roundingPower
  | scrollMouse
  | scrollTouchpad
  deriving DecidableEq, Repr

/-- The identifier of a boolean member in the source. -/
def BoolMember.ident : BoolMember → String
  | allowsInput => "allowsInput"
  | dimAround => "dimAround"
  | decorate => "decorate"
  | focusOnActivate => "focusOnActivate"
  | keepAspectRatio => "keepAspectRatio"
  | nearestNeighbor => "nearestNeighbor"
  | noAnim => "noAnim"
  | noBorder => "noBorder"
  | noBlur => "noBlur"
  | noDim => "noDim"
  | noFocus => "noFocus"
  | noMaxSize => "noMaxSize"
  | noRounding => "noRounding"
  | noShadow => "noShadow"
  | noShortcutsInhibit => "noShortcutsInhibit"
  | opaque_ => "opaque"
  | RGBX => "RGBX"
  | syncFullscreen => "syncFullscreen"
  | tearing => "tearing"
  | xray => "xray"
  | renderUnfocused => "renderUnfocused"
  | noFollowMouse => "noFollowMouse"
  | persistentSize => "persistentSize"

/-- The identifier of an integer member in the source. -/
def IntMember.ident : IntMember → String
  | borderSize => "borderSize"
  | rounding => "rounding"

/-- The identifier of a float member in the source. -/
def FloatMember.ident : FloatMember → String
  | roundingPower => "roundingPower"
  | scrollMouse => "scrollMouse"
  | scrollTouchpad => "scrollTouchpad"

/-- A pointer to a member of the `m_sWindowData` of a window: the window object,
given by its address, and the member. -/
structure MemberRef (M : Type) where
  window : Nat
  member : M
  deriving DecidableEq, Repr

/-- The expression `&pWindow->m_sWindowData.member`; undefined (`none`) for the
null pointer. -/
def memberOf {M : Type} (pWindow : PHLWINDOW) (member : M) : Option (MemberRef M) :=
  pWindow.map (fun obj => { window := obj.addr, member := member })

namespace NWindowProperties

/-- `boolWindowProperties` (lines 469-491), in the order of the initialiser. -/
def boolWindowProperties : List (String × (PHLWINDOW → Option (MemberRef BoolMember))) :=
  [("allowsinput", fun pWindow => memberOf pWindow BoolMember.allowsInput),
   ("dimaround", fun pWindow => memberOf pWindow BoolMember.dimAround),
   ("decorate", fun pWindow => memberOf pWindow BoolMember.decorate),
   ("focusonactivate", fun pWindow => memberOf pWindow BoolMember.focusOnActivate),
   ("keepaspectratio", fun pWindow => memberOf pWindow BoolMember.keepAspectRatio),
   ("nearestneighbor", fun pWindow => memberOf pWindow BoolMember.nearestNeighbor),
   ("noanim", fun pWindow => memberOf pWindow BoolMember.noAnim),
   ("noblur", fun pWindow => memberOf pWindow BoolMember.noBlur),
   ("noborder", fun pWindow => memberOf pWindow BoolMember.noBorder),
   ("nodim", fun pWindow => memberOf pWindow BoolMember.noDim),
   ("nofocus", fun pWindow => memberOf pWindow BoolMember.noFocus),
   ("nomaxsize", fun pWindow => memberOf pWindow BoolMember.noMaxSize),
   ("norounding", fun pWindow => memberOf pWindow BoolMember.noRounding),
   ("noshadow", fun pWindow => memberOf pWindow BoolMember.noShadow),
   ("noshortcutsinhibit", fun pWindow => memberOf pWindow BoolMember.noShortcutsInhibit),
   ("opaque", fun pWindow => memberOf pWindow BoolMember.opaque_),
   ("forcergbx", fun pWindow => memberOf pWindow BoolMember.RGBX),
   ("syncfullscreen", fun pWindow => memberOf pWindow BoolMember.syncFullscreen),
   ("immediate", fun pWindow => memberOf pWindow BoolMember.tearing),
   ("xray", fun pWindow => memberOf pWindow BoolMember.xray),
   ("nofollowmouse", fun pWindow => memberOf pWindow BoolMember.noFollowMouse)]

/-- `intWindowProperties` (lines 493-496). -/
def intWindowProperties : List (String × (PHLWINDOW → Option (MemberRef IntMember))) :=
  [("rounding", fun pWindow => memberOf pWindow IntMember.rounding),
   ("bordersize", fun pWindow => memberOf pWindow IntMember.borderSize)]

/-- `floatWindowProperties` (lines 498-502). -/
def floatWindowProperties : List (String × (PHLWINDOW → Option (MemberRef FloatMember))) :=
  [("roundingpower", fun pWindow => memberOf pWindow FloatMember.roundingPower),
   ("scrollmouse", fun pWindow => memberOf pWindow FloatMember.scrollMouse),
   ("scrolltouchpad", fun pWindow => memberOf pWindow FloatMember.scrollTouchpad)]

/-- Lookup of a name in one of the tables and call of the accessor found on the
window; `none` when the name is not a key of the table. -/
def resolve {M : Type} (table : List (String × (PHLWINDOW → Option (MemberRef M))))
    (name : String) (pWindow : PHLWINDOW) : Option (MemberRef M) :=
  match table.lookup name with
  | none => none
  | some accessor => accessor pWindow

end NWindowProperties

/-- A name in lower case. -/
def lowerCase (s : String) : String :=
  String.mk (s.toList.map Char.toLower)

/-- The name under which a boolean member is documented to be reachable: its
lower-cased identifier, except `forcergbx` for `RGBX` and `immediate` for
`tearing`. -/
def BoolMember.propertyName (m : BoolMember) : String :=
  if m = BoolMember.RGBX then "forcergbx"
  else if m = BoolMember.tearing then "immediate"
  else lowerCase m.ident

end Hyprland

/-! # Properties -/

namespace Hyprland

open eFullscreenMode

/-! ## Virtual keyboard: error handling -/

/-- C1: a key request and a modifiers request received while `hasKeymap` is
false post the `NO_KEYMAP` protocol error and nothing else, emit no key event
and no modifiers event, and leave `pressed` and `hasKeymap` (the whole
keyboard) unchanged. -/
theorem no_keymap_request_rejected (kb : CVirtualKeyboardV1Resource)
    (h : kb.hasKeymap = false) (timeMs key state depressed latched locked group : Nat) :
    ((∃ msg, (kb.setKey timeMs key state).2 =
          [Effect.error eVirtualKeyboardError.ZWP_VIRTUAL_KEYBOARD_V1_ERROR_NO_KEYMAP msg]) ∧
      (∀ e, Effect.key e ∉ (kb.setKey timeMs key state).2) ∧
      (∀ e, Effect.modifiers e ∉ (kb.setKey timeMs key state).2) ∧
      (kb.setKey timeMs key state).1.pressed = kb.pressed ∧
      (kb.setKey timeMs key state).1.hasKeymap = kb.hasKeymap ∧
      (kb.setKey timeMs key state).1 = kb) ∧
    ((∃ msg, (kb.setModifiers depressed latched locked group).2 =
          [Effect.error eVirtualKeyboardError.ZWP_VIRTUAL_KEYBOARD_V1_ERROR_NO_KEYMAP msg]) ∧
      (∀ e, Effect.key e ∉ (kb.setModifiers depressed latched locked group).2) ∧
      (∀ e, Effect.modifiers e ∉ (kb.setModifiers depressed latched locked group).2) ∧
      (kb.setModifiers depressed latched locked group).1.pressed = kb.pressed ∧
      (kb.setModifiers depressed latched locked group).1.hasKeymap = kb.hasKeymap ∧
      (kb.setModifiers depressed latched locked group).1 = kb) := by
  simp [CVirtualKeyboardV1Resource.setKey, CVirtualKeyboardV1Resource.setModifiers, h]

/-- Witness of C1: a fresh keyboard with two keys recorded as pressed. -/
theorem no_keymap_request_rejected_witness :
    (({ resource := some 7, name := "hl-virtual-keyboard", hasKeymap := false,
        pressed := [30, 31] } : CVirtualKeyboardV1Resource).setKey 100 30 1).2 =
        [Effect.error eVirtualKeyboardError.ZWP_VIRTUAL_KEYBOARD_V1_ERROR_NO_KEYMAP
          "Key event received before a keymap was set"] ∧
      (({ resource := some 7, name := "hl-virtual-keyboard", hasKeymap := false,
            pressed := [30, 31] } : CVirtualKeyboardV1Resource).setKey 100 30 1).1.pressed
        = [30, 31] := by
  have h := no_keymap_request_rejected
    { resource := some 7, name := "hl-virtual-keyboard", hasKeymap := false, pressed := [30, 31] }
    rfl 100 30 1 0 0 0 0
  exact ⟨by decide, h.1.2.2.2.1⟩

/-- C2: the `setKeymap` handler signals out-of-memory, emits nothing else and
leaves the keyboard (in particular `hasKeymap`) as it was when creating the
context, mapping the descriptor or compiling the keymap fails; when all three
succeed it emits exactly one keymap event carrying the compiled keymap, sets
`hasKeymap` and signals no error. -/
theorem setKeymap_outcome (calls : CVirtualKeyboardV1Resource.KeymapCalls)
    (kb : CVirtualKeyboardV1Resource) (fmt : Nat) (fd : Int) (len : Nat) :
    (calls.xkb_context_new = none →
        kb.setKeymap calls fmt fd len = (kb, [Effect.noMemory])) ∧
    (∀ ctx, calls.xkb_context_new = some ctx → calls.mmap fd len = none →
        kb.setKeymap calls fmt fd len = (kb, [Effect.noMemory])) ∧
    (∀ ctx data, calls.xkb_context_new = some ctx → calls.mmap fd len = some data →
        calls.xkb_keymap_new_from_string ctx data = none →
        kb.setKeymap calls fmt fd len = (kb, [Effect.noMemory])) ∧
    (∀ ctx data km, calls.xkb_context_new = some ctx → calls.mmap fd len = some data →
        calls.xkb_keymap_new_from_string ctx data = some km →
        (kb.setKeymap calls fmt fd len).2 = [Effect.keymap { keymap := km }] ∧
        (kb.setKeymap calls fmt fd len).1.hasKeymap = true ∧
        (kb.setKeymap calls fmt fd len).1 = { kb with hasKeymap := true } ∧
        Effect.noMemory ∉ (kb.setKeymap calls fmt fd len).2 ∧
        ∀ code msg, Effect.error code msg ∉ (kb.setKeymap calls fmt fd len).2) := by
  refine ⟨?_, ?_, ?_, ?_⟩
  · intro h
    simp [CVirtualKeyboardV1Resource.setKeymap, h]
  · intro ctx h1 h2
    simp [CVirtualKeyboardV1Resource.setKeymap, h1, h2]
  · intro ctx data h1 h2 h3
    simp [CVirtualKeyboardV1Resource.setKeymap, h1, h2, h3]
  · intro ctx data km h1 h2 h3
    simp [CVirtualKeyboardV1Resource.setKeymap, h1, h2, h3]

/-- Witness of C2: a failing `mmap` after a successful context creation, and a
run in which all three calls succeed. -/
theorem setKeymap_outcome_witness :
    (CVirtualKeyboardV1Resource.create (some 7)).setKeymap
        { xkb_context_new := some 1, mmap := fun _ _ => none,
          xkb_keymap_new_from_string := fun _ _ => some 5 } 1 3 64
      = (CVirtualKeyboardV1Resource.create (some 7), [Effect.noMemory]) ∧
    ((CVirtualKeyboardV1Resource.create (some 7)).setKeymap
        { xkb_context_new := some 1, mmap := fun _ _ => some "xkb_keymap",
          xkb_keymap_new_from_string := fun _ _ => some 5 } 1 3 64).2
      = [Effect.keymap { keymap := 5 }] :=
  ⟨(setKeymap_outcome
      { xkb_context_new := some 1, mmap := fun _ _ => none,
        xkb_keymap_new_from_string := fun _ _ => some 5 }
      (CVirtualKeyboardV1Resource.create (some 7)) 1 3 64).2.1 1 rfl rfl,
   ((setKeymap_outcome
      { xkb_context_new := some 1, mmap := fun _ _ => some "xkb_keymap",
        xkb_keymap_new_from_string := fun _ _ => some 5 }
      (CVirtualKeyboardV1Resource.create (some 7)) 1 3 64).2.2.2 1 "xkb_keymap" 5
      rfl rfl rfl).1⟩

/-- C5: when the new resource is not good, `onCreateKeeb` signals out-of-memory,
emits no `newKeyboard` event and leaves `m_vKeyboards` exactly as it was; when
it is good, the keyboard is appended at the end of the list, the earlier
entries are unchanged, and exactly one `newKeyboard` event carrying that
keyboard is emitted. -/
theorem onCreateKeeb_outcome (p : CVirtualKeyboardProtocol) (wlResource : Option Nat) :
    ((CVirtualKeyboardV1Resource.create wlResource).good = false →
        (p.onCreateKeeb wlResource).2 = [ProtocolEffect.noMemory] ∧
        (∀ kb, ProtocolEffect.newKeyboard kb ∉ (p.onCreateKeeb wlResource).2) ∧
        (p.onCreateKeeb wlResource).1.m_vKeyboards = p.m_vKeyboards) ∧
    ((CVirtualKeyboardV1Resource.create wlResource).good = true →
        (p.onCreateKeeb wlResource).1.m_vKeyboards =
          p.m_vKeyboards ++ [CVirtualKeyboardV1Resource.create wlResource] ∧
        (p.onCreateKeeb wlResource).2 =
          [ProtocolEffect.newKeyboard (CVirtualKeyboardV1Resource.create wlResource)] ∧
        ProtocolEffect.noMemory ∉ (p.onCreateKeeb wlResource).2) := by
  constructor
  · intro h
    simp [CVirtualKeyboardProtocol.onCreateKeeb, h]
  · intro h
    simp [CVirtualKeyboardProtocol.onCreateKeeb, h]

/-- Witness of C5: a manager with one keyboard, asked for a second one whose
resource cannot be created, and for one whose resource is created. -/
theorem onCreateKeeb_outcome_witness :
    (({ m_vKeyboards := [CVirtualKeyboardV1Resource.create (some 3)] } :
        CVirtualKeyboardProtocol).onCreateKeeb none).1.m_vKeyboards
      = [CVirtualKeyboardV1Resource.create (some 3)] ∧
    (({ m_vKeyboards := [CVirtualKeyboardV1Resource.create (some 3)] } :
        CVirtualKeyboardProtocol).onCreateKeeb (some 4)).1.m_vKeyboards
      = [CVirtualKeyboardV1Resource.create (some 3)] ++
          [CVirtualKeyboardV1Resource.create (some 4)] :=
  ⟨((onCreateKeeb_outcome { m_vKeyboards := [CVirtualKeyboardV1Resource.create (some 3)] }
      none).1 (by decide)).2.2,
   ((onCreateKeeb_outcome { m_vKeyboards := [CVirtualKeyboardV1Resource.create (some 3)] }
      (some 4)).2 (by decide)).1⟩

/-! ## Window references and fullscreen state -/

/-- C3: `valid` is false exactly for a null (shared) or a null or expired
(weak) reference; `validMapped` always returns a value, which is true exactly
when the reference is valid and the window it refers to has `m_bIsMapped` set;
for a null or expired reference it returns false without reading the window,
and `validMapped` implies `valid`. -/
theorem valid_validMapped_spec :
    (∀ w : PHLWINDOW,
      (valid w = false ↔ w = none) ∧
      (validMapped w = some true ↔
        valid w = true ∧ ∃ obj, w = some obj ∧ obj.window.m_bIsMapped = true) ∧
      (∃ b, validMapped w = some b) ∧
      (w = none → validMapped w = some false) ∧
      (validMapped w = some true → valid w = true)) ∧
    (∀ r : PHLWINDOWREF,
      (validRef r = false ↔ r = PHLWINDOWREF.null ∨ ∃ a, r = PHLWINDOWREF.dead a) ∧
      (validMappedRef r = some true ↔
        validRef r = true ∧ ∃ obj, r = PHLWINDOWREF.live obj ∧ obj.window.m_bIsMapped = true) ∧
      (∃ b, validMappedRef r = some b) ∧
      (r.expired = true → validMappedRef r = some false) ∧
      (validMappedRef r = some true → validRef r = true)) := by
  constructor
  · intro w
    cases w with
    | none => simp [valid, validMapped]
    | some obj => simp [valid, validMapped, PHLWINDOW.deref]
  · intro r
    cases r with
    | null => simp [validRef, validMappedRef, PHLWINDOWREF.expired]
    | dead a => simp [validRef, validMappedRef, PHLWINDOWREF.expired]
    | live obj =>
      simp [validRef, validMappedRef, PHLWINDOWREF.expired, PHLWINDOWREF.deref]

/-- Witness of C3: a mapped live window is valid and mapped, through a shared
and through a weak reference; a reference to a destroyed window is neither. -/
theorem valid_validMapped_spec_witness :
    validMapped (some { addr := 4096, window := { m_bIsMapped := true } }) = some true ∧
    validMappedRef (PHLWINDOWREF.live { addr := 4096, window := { m_bIsMapped := true } })
      = some true ∧
    validMappedRef (PHLWINDOWREF.dead 4096) = some false :=
  ⟨(valid_validMapped_spec.1 (some { addr := 4096, window := { m_bIsMapped := true } })).2.1.2
      ⟨rfl, _, rfl, rfl⟩,
   (valid_validMapped_spec.2
      (PHLWINDOWREF.live { addr := 4096, window := { m_bIsMapped := true } })).2.1.2
      ⟨rfl, _, rfl, rfl⟩,
   (valid_validMapped_spec.2 (PHLWINDOWREF.dead 4096)).2.2.2.1 rfl⟩

/-- C4: writing a mode to `client` leaves `internal` unchanged and writing a
mode to `internal` leaves `client` unchanged; a state whose `internal` is
`FSMODE_FULLSCREEN` still has it after `client` is set to `FSMODE_MAXIMIZED`. -/
theorem fullscreen_fields_independent (s : SFullscreenState) (m : eFullscreenMode) :
    (s.writeClient m).internal = s.internal ∧ (s.writeClient m).client = m ∧
    (s.writeInternal m).client = s.client ∧ (s.writeInternal m).internal = m ∧
    (((s.writeInternal FSMODE_FULLSCREEN).writeClient FSMODE_MAXIMIZED).internal
      = FSMODE_FULLSCREEN) ∧
    (s.internal = FSMODE_FULLSCREEN →
      (s.writeClient FSMODE_MAXIMIZED).internal = FSMODE_FULLSCREEN) := by
  refine ⟨rfl, rfl, rfl, rfl, rfl, fun h => ?_⟩
  simpa [SFullscreenState.writeClient] using h

/-- Witness of C4 at the state with `internal = FSMODE_FULLSCREEN`. -/
theorem fullscreen_fields_independent_witness :
    (({ internal := FSMODE_FULLSCREEN, client := FSMODE_NONE } : SFullscreenState).writeClient
      FSMODE_MAXIMIZED).internal = FSMODE_FULLSCREEN :=
  (fullscreen_fields_independent { internal := FSMODE_FULLSCREEN, client := FSMODE_NONE }
    FSMODE_MAXIMIZED).2.2.2.2.2 rfl

/-- C9: a default-constructed `SFullscreenState` and the `m_sFullscreenState` of
a newly constructed window have `internal = FSMODE_NONE` and
`client = FSMODE_NONE`. -/
theorem fullscreen_state_default :
    ({} : SFullscreenState).internal = FSMODE_NONE ∧
    ({} : SFullscreenState).client = FSMODE_NONE ∧
    ({} : CWindow).m_sFullscreenState.internal = FSMODE_NONE ∧
    ({} : CWindow).m_sFullscreenState.client = FSMODE_NONE :=
  ⟨rfl, rfl, rfl, rfl⟩

/-! ## Formatting a window handle -/

/-- The flags set by `parse` are those given initially plus those whose character
occurs before the closing brace. -/
theorem parse_flags (spec : List Char) :
    ∀ f g : WindowFormatter, WindowFormatter.parse spec f = some g →
      g.formatAddressOnly = (f.formatAddressOnly || decide ('x' ∈ specChars spec)) ∧
      g.formatWorkspace = (f.formatWorkspace || decide ('w' ∈ specChars spec)) ∧
      g.formatMonitor = (f.formatMonitor || decide ('m' ∈ specChars spec)) ∧
      g.formatClass = (f.formatClass || decide ('c' ∈ specChars spec)) := by
  induction spec with
  | nil =>
    intro f g h
    simp [WindowFormatter.parse] at h
    subst h
    simp [specChars]
  | cons ch rest ih =>
    intro f g h
    unfold WindowFormatter.parse at h
    by_cases h0 : ch = '\x7d'
    · simp [h0] at h
      subst h
      simp [specChars, h0]
    · simp only [h0, if_false] at h
      have hs : specChars (ch :: rest) = ch :: specChars rest := by
        have hne : (ch != '\x7d') = true := by simp [h0]
        simp [specChars, List.takeWhile_cons, hne]
      rw [hs]
      by_cases hx : ch = 'x'
      · subst hx
        simp only [if_true] at h
        obtain ⟨h1, h2, h3, h4⟩ := ih _ _ h
        simp [h1, h2, h3, h4]
      · simp only [hx, if_false] at h
        by_cases hm : ch = 'm'
        · subst hm
          simp only [if_true] at h
          obtain ⟨h1, h2, h3, h4⟩ := ih _ _ h
          simp [h1, h2, h3, h4]
        · simp only [hm, if_false] at h
          by_cases hw : ch = 'w'
          · subst hw
            simp only [if_true] at h
            obtain ⟨h1, h2, h3, h4⟩ := ih _ _ h
            simp [h1, h2, h3, h4]
          · simp only [hw, if_false] at h
            by_cases hc : ch = 'c'
            · subst hc
              simp only [if_true] at h
              obtain ⟨h1, h2, h3, h4⟩ := ih _ _ h
              simp [h1, h2, h3, h4]
            · simp [hc] at h

/-- Parsing succeeds on every specification made of flag characters. -/
theorem parse_total (spec : List Char) :
    ∀ f : WindowFormatter, (∀ ch ∈ specChars spec, ch ∈ ['x', 'm', 'w', 'c']) →
      ∃ g, WindowFormatter.parse spec f = some g := by
  induction spec with
  | nil => intro f _; exact ⟨f, rfl⟩
  | cons ch rest ih =>
    intro f h
    unfold WindowFormatter.parse
    by_cases h0 : ch = '\x7d'
    · exact ⟨f, by simp [h0]⟩
    · have hs : specChars (ch :: rest) = ch :: specChars rest := by
        have hne : (ch != '\x7d') = true := by simp [h0]
        simp [specChars, List.takeWhile_cons, hne]
      rw [hs] at h
      have hch := h ch (List.mem_cons_self _ _)
      have hrest : ∀ c ∈ specChars rest, c ∈ ['x', 'm', 'w', 'c'] :=
        fun c hc => h c (List.mem_cons_of_mem _ hc)
      simp only [h0, if_false]
      simp only [List.mem_cons, List.mem_singleton, List.not_mem_nil, or_false] at hch
      rcases hch with hx | hx | hx | hx <;> subst hx <;> simp <;> exact ih _ hrest

/-- The appended output of `format` is the documented string for the flags of the
formatter. -/
theorem format_eq_documented (ids : WindowIds) (f : WindowFormatter) (w : PHLWINDOW) :
    f.format ids w "" =
      documentedFormat ids f.formatAddressOnly f.formatWorkspace f.formatMonitor f.formatClass
        w := by
  have hopen : ∀ r : String, "[" ++ ("Window " ++ r) = "[Window " ++ r := by
    intro r
    rw [← String.append_assoc]
    rfl
  have hws : ∀ (o : Option Nat) (a b : Int),
      (if o.isSome = true then a else b) = (match o with | some _ => a | none => b) := by
    intro o a b
    cases o <;> rfl
  unfold WindowFormatter.format documentedFormat
  cases w with
  | none => cases f.formatAddressOnly <;> simp
  | some obj =>
    cases f.formatAddressOnly <;> cases f.formatWorkspace <;> cases f.formatMonitor <;>
      cases f.formatClass <;> simp [String.append_assoc, hopen, hws]

/-- C6: for every format specification made of the flag characters, parsing
succeeds and sets each flag exactly when its character occurs, in whatever
order; the output is the documented one: with `x` only the address in
hexadecimal (also for a null handle), without `x` a null handle gives
`[Window nullptr]`, otherwise the bracketed address and title followed by the
workspace, monitor and class parts, in this order, each iff its flag is set. -/
theorem format_follows_documented_flags (ids : WindowIds) (spec : List Char) (w : PHLWINDOW)
    (hflags : ∀ ch ∈ specChars spec, ch ∈ ['x', 'm', 'w', 'c']) :
    ∃ f, WindowFormatter.parse spec {} = some f ∧
      f.formatAddressOnly = decide ('x' ∈ specChars spec) ∧
      f.formatWorkspace = decide ('w' ∈ specChars spec) ∧
      f.formatMonitor = decide ('m' ∈ specChars spec) ∧
      f.formatClass = decide ('c' ∈ specChars spec) ∧
      f.format ids w "" =
        documentedFormat ids (decide ('x' ∈ specChars spec)) (decide ('w' ∈ specChars spec))
          (decide ('m' ∈ specChars spec)) (decide ('c' ∈ specChars spec)) w ∧
      ('x' ∈ specChars spec → f.format ids w "" = formatHex w.get) ∧
      ('x' ∉ specChars spec → w = none → f.format ids w "" = "[Window nullptr]") := by
  obtain ⟨f, hf⟩ := parse_total spec {} hflags
  obtain ⟨h1, h2, h3, h4⟩ := parse_flags spec {} f hf
  simp only [Bool.false_or] at h1 h2 h3 h4
  have hdoc := format_eq_documented ids f w
  rw [h1, h2, h3, h4] at hdoc
  refine ⟨f, hf, h1, h2, h3, h4, hdoc, ?_, ?_⟩
  · intro hx
    rw [hdoc]
    simp [documentedFormat, hx]
  · intro hx hw
    rw [hdoc, hw]
    simp [documentedFormat, hx]

/-- Witness of C6: the specification `cw` on a window with title `term`, class
`kitty` and a workspace. -/
theorem format_follows_documented_flags_witness :
    (∀ ch ∈ specChars ['c', 'w'], ch ∈ ['x', 'm', 'w', 'c']) ∧
    ∃ f, WindowFormatter.parse ['c', 'w'] {} = some f ∧
      f.format { workspaceID := fun _ => 3, monitorID := fun _ => 0, WORKSPACE_INVALID := -1 }
          (some { addr := 255, window := { m_szTitle := "term", m_szClass := "kitty",
                                           m_pWorkspace := some 1 } }) ""
        = "[Window ff: title: \"term\", workspace: 3, class: kitty]" := by
  refine ⟨by decide, ?_⟩
  obtain ⟨f, hf, _, _, _, _, hdoc, _⟩ := format_follows_documented_flags
    { workspaceID := fun _ => 3, monitorID := fun _ => 0, WORKSPACE_INVALID := -1 }
    ['c', 'w']
    (some { addr := 255, window := { m_szTitle := "term", m_szClass := "kitty",
                                     m_pWorkspace := some 1 } })
    (by decide)
  refine ⟨f, hf, ?_⟩
  rw [hdoc]
  decide

/-! ## Flag enumerations -/

/-- Testing a single-bit flag is testing that bit. -/
theorem hasFlag_two_pow (m k : Nat) : hasFlag m (2 ^ k) = m.testBit k := by
  unfold hasFlag
  rw [Nat.and_two_pow]
  cases h : m.testBit k
  · simp
  · have : 2 ^ k ≠ 0 := by positivity
    simp [this]

/-- A bit is set in the OR of a list exactly when it is set in a member. -/
theorem testBit_maskOf (S : List Nat) (k : Nat) :
    (maskOf S).testBit k = S.any (fun g => g.testBit k) := by
  induction S with
  | nil => simp [maskOf]
  | cons g S ih =>
    have : maskOf (g :: S) = g ||| maskOf S := rfl
    rw [this, Nat.testBit_or, ih, List.any_cons]

/-- The OR of values below a power of two is below it. -/
theorem maskOf_lt (S : List Nat) (n : Nat) (h : ∀ f ∈ S, f < 2 ^ n) : maskOf S < 2 ^ n := by
  induction S with
  | nil =>
    have : maskOf [] = 0 := rfl
    rw [this]
    positivity
  | cons g S ih =>
    have : maskOf (g :: S) = g ||| maskOf S := rfl
    rw [this]
    exact Nat.or_lt_two_pow (h g (List.mem_cons_self _ _))
      (ih (fun f hf => h f (List.mem_cons_of_mem _ hf)))

/-- Every flag of the three enumerations is one of the bits 0 to 6. -/
theorem flags_single_bit (e : FlagEnum) : ∀ f ∈ e.flags, ∃ k, k < 7 ∧ f = 2 ^ k := by
  intro f hf
  cases e <;> simp only [FlagEnum.flags, List.mem_cons, List.mem_singleton, List.not_mem_nil,
    or_false] at hf
  · rcases hf with h | h | h | h | h | h | h <;> subst h
    exacts [⟨0, by decide, rfl⟩, ⟨1, by decide, rfl⟩, ⟨2, by decide, rfl⟩, ⟨3, by decide, rfl⟩,
      ⟨4, by decide, rfl⟩, ⟨5, by decide, rfl⟩, ⟨6, by decide, rfl⟩]
  · rcases hf with h | h | h | h | h | h | h <;> subst h
    exacts [⟨0, by decide, rfl⟩, ⟨1, by decide, rfl⟩, ⟨2, by decide, rfl⟩, ⟨3, by decide, rfl⟩,
      ⟨4, by decide, rfl⟩, ⟨5, by decide, rfl⟩, ⟨6, by decide, rfl⟩]
  · rcases hf with h | h | h | h | h <;> subst h
    exacts [⟨0, by decide, rfl⟩, ⟨1, by decide, rfl⟩, ⟨2, by decide, rfl⟩, ⟨3, by decide, rfl⟩,
      ⟨4, by decide, rfl⟩]

/-- C10: in each of `eGroupRules`, `eGetWindowProperties` and `eSuppressEvents`
every flag is a single bit below the width of the enumeration, the flags are
pairwise distinct, the `NONE` / `WINDOW_ONLY` value is the empty mask 0, for
every list `S` of flags of the enumeration the OR `m` of `S` has
`(m & f) != 0` exactly for the flags `f` in `S`, and `m` is unchanged by the
conversion to the 8-bit enumeration type and to its 16-bit or 64-bit storage. -/
theorem flag_masks_do_not_alias (e : FlagEnum) (S : List Nat) (hS : ∀ f ∈ S, f ∈ e.flags) :
    (∀ f ∈ e.flags, ∃ k, k < e.enumBits ∧ f = 2 ^ k) ∧
    e.flags.Nodup ∧
    e.zero = 0 ∧ maskOf [] = e.zero ∧
    (∀ f ∈ e.flags, hasFlag (maskOf S) f = true ↔ f ∈ S) ∧
    truncate e.enumBits (maskOf S) = maskOf S ∧
    truncate e.storageBits (maskOf S) = maskOf S := by
  refine ⟨?_, ?_, ?_, ?_, ?_, ?_, ?_⟩
  · intro f hf
    obtain ⟨k, hk, rfl⟩ := flags_single_bit e f hf
    exact ⟨k, by simp only [FlagEnum.enumBits]; omega, rfl⟩
  · cases e <;> decide
  · cases e <;> rfl
  · cases e <;> rfl
  · intro f hf
    obtain ⟨k, _, rfl⟩ := flags_single_bit e f hf
    rw [hasFlag_two_pow, testBit_maskOf, List.any_eq_true]
    constructor
    · rintro ⟨g, hg, hbit⟩
      obtain ⟨j, _, rfl⟩ := flags_single_bit e g (hS g hg)
      rw [Nat.testBit_two_pow] at hbit
      have : j = k := by simpa using hbit
      subst this
      exact hg
    · intro hmem
      exact ⟨2 ^ k, hmem, Nat.testBit_two_pow_self⟩
  · have h7 : maskOf S < 2 ^ 7 := maskOf_lt S 7 (fun f hf => by
      obtain ⟨k, hk, rfl⟩ := flags_single_bit e f (hS f hf)
      exact Nat.pow_lt_pow_right (by decide) hk)
    unfold truncate
    apply Nat.mod_eq_of_lt
    cases e <;> simp only [FlagEnum.enumBits] <;> omega
  · have h7 : maskOf S < 2 ^ 7 := maskOf_lt S 7 (fun f hf => by
      obtain ⟨k, hk, rfl⟩ := flags_single_bit e f (hS f hf)
      exact Nat.pow_lt_pow_right (by decide) hk)
    unfold truncate
    apply Nat.mod_eq_of_lt
    cases e <;> simp only [FlagEnum.storageBits] <;> omega

/-- Witness of C10: the mask `GROUP_LOCK | GROUP_SET` has `GROUP_LOCK` and has not
`GROUP_INVADE`. -/
theorem flag_masks_do_not_alias_witness :
    (∀ f ∈ [GROUP_LOCK, GROUP_SET], f ∈ FlagEnum.eGroupRules.flags) ∧
    (hasFlag (maskOf [GROUP_LOCK, GROUP_SET]) GROUP_LOCK = true ↔
      GROUP_LOCK ∈ [GROUP_LOCK, GROUP_SET]) ∧
    (hasFlag (maskOf [GROUP_LOCK, GROUP_SET]) GROUP_INVADE = true ↔
      GROUP_INVADE ∈ [GROUP_LOCK, GROUP_SET]) :=
  ⟨by decide,
   (flag_masks_do_not_alias FlagEnum.eGroupRules [GROUP_LOCK, GROUP_SET] (by decide)).2.2.2.2.1
      GROUP_LOCK (by decide),
   (flag_masks_do_not_alias FlagEnum.eGroupRules [GROUP_LOCK, GROUP_SET] (by decide)).2.2.2.2.1
      GROUP_INVADE (by decide)⟩

/-! ## Resize negotiation -/

namespace ResizeState

/-- The initial state has monotonic serials. -/
theorem monotonic_initial (size : Vector2D) : (initial size).Monotonic := by
  simp [Monotonic, initial]

/-- A request with a fresh serial keeps the serials monotonic. -/
theorem monotonic_sendWindowSize (st : ResizeState) (force : Bool) (serial : Nat)
    (target : Vector2D) (hst : st.Monotonic) (hfresh : st.Fresh serial) :
    (st.sendWindowSize force serial target).Monotonic := by
  unfold sendWindowSize
  split
  · refine ⟨?_, ?_⟩
    · simp only [List.pairwise_append]
      refine ⟨hst.1, List.pairwise_singleton _ _, ?_⟩
      intro a ha b hb
      simp only [List.mem_singleton] at hb
      subst hb
      exact hfresh.2 a ha
    · intro c hc e he
      simp only [List.mem_append, List.mem_singleton] at he
      rcases he with he | he
      · exact hst.2 c hc e he
      · subst he
        exact hfresh.1 c hc
  · exact hst

/-- In a queue with strictly increasing serials a serial identifies its entry. -/
theorem same_serial_same_entry (l : List (Nat × Vector2D))
    (hl : l.Pairwise (fun a b => a.1 < b.1)) (a b : Nat × Vector2D) (ha : a ∈ l) (hb : b ∈ l)
    (hab : a.1 = b.1) : a = b := by
  induction l with
  | nil => cases ha
  | cons x l ih =>
    rw [List.pairwise_cons] at hl
    rcases List.mem_cons.1 ha with ha1 | ha1 <;> rcases List.mem_cons.1 hb with hb1 | hb1
    · rw [ha1, hb1]
    · have := hl.1 b hb1
      rw [← ha1] at this
      omega
    · have := hl.1 a ha1
      rw [← hb1] at this
      omega
    · exact ih hl.2 ha1 hb1

/-- Acknowledging a pending serial commits its size and drops the entries up to
it. -/
theorem onAck_of_pending (st : ResizeState) (hst : st.Monotonic) (s : Nat) (B : Vector2D)
    (hB : (s, B) ∈ st.m_vPendingSizeAcks) :
    st.onAck s =
      { m_vReportedSize := B, m_pPendingSizeAck := some (s, B),
        m_vPendingSizeAcks := st.m_vPendingSizeAcks.filter (fun e => decide (s < e.1)) } := by
  have hstale : st.staleAck s = false := by
    unfold staleAck
    cases hc : st.m_pPendingSizeAck with
    | none => rfl
    | some c =>
      have := hst.2 c hc (s, B) hB
      simp only [decide_eq_false_iff_not]
      simp only at this
      omega
  have hfind : st.m_vPendingSizeAcks.find? (fun e => e.1 == s) = some (s, B) := by
    cases hf : st.m_vPendingSizeAcks.find? (fun e => e.1 == s) with
    | none =>
      rw [List.find?_eq_none] at hf
      have := hf (s, B) hB
      simp at this
    | some e =>
      have hmem := List.mem_of_find?_eq_some hf
      have hp := List.find?_some hf
      have he : e.1 = s := by simpa using hp
      rw [same_serial_same_entry _ hst.1 e (s, B) hmem hB he]
  unfold onAck
  simp only [hstale, hfind]
  simp

/-- An acknowledgement keeps the serials monotonic. -/
theorem monotonic_onAck (st : ResizeState) (serial : Nat) (hst : st.Monotonic) :
    (st.onAck serial).Monotonic := by
  unfold onAck
  split
  · exact hst
  · split
    · rename_i e hf
      refine ⟨hst.1.filter _, ?_⟩
      intro c hc x hx
      simp only [Option.some.injEq] at hc
      have he : e.1 = serial := by simpa using List.find?_some hf
      simp only [List.mem_filter, decide_eq_true_eq] at hx
      rw [← hc]
      omega
    · refine ⟨hst.1.filter _, ?_⟩
      intro c hc x hx
      exact hst.2 c hc x (List.mem_of_mem_filter hx)

end ResizeState

/-- C7: in a window whose pending serials are monotonic, for serials `s1 < s2` and
a pending request `(s2, B)`: after `onAck(s2)` the committed reported size is
`B`, exactly the pending entries with serial at most `s2` have been discarded
(so no request `(s1, A)` is pending any more), and a later `onAck(s1)` changes
nothing: the committed size stays `B` and the pending queue is the same. -/
theorem resize_commit_never_regresses (st : ResizeState) (hst : st.Monotonic) (s1 s2 : Nat)
    (A B : Vector2D) (h12 : s1 < s2) (hB : (s2, B) ∈ st.m_vPendingSizeAcks) :
    (st.onAck s2).m_vReportedSize = B ∧
    (∀ e ∈ (st.onAck s2).m_vPendingSizeAcks, s2 < e.1) ∧
    (st.onAck s2).m_vPendingSizeAcks =
      st.m_vPendingSizeAcks.filter (fun e => decide (s2 < e.1)) ∧
    (s1, A) ∉ (st.onAck s2).m_vPendingSizeAcks ∧
    (st.onAck s2).onAck s1 = st.onAck s2 ∧
    ((st.onAck s2).onAck s1).m_vReportedSize = B ∧
    (st.onAck s2).Monotonic := by
  have h := ResizeState.onAck_of_pending st hst s2 B hB
  have hno : (st.onAck s2).onAck s1 = st.onAck s2 := by
    rw [h]
    simp [ResizeState.onAck, ResizeState.staleAck, h12]
  refine ⟨by rw [h], ?_, by rw [h], ?_, hno, by rw [hno, h], ?_⟩
  · intro e he
    rw [h] at he
    simpa using (List.mem_filter.1 he).2
  · rw [h]
    simp only [List.mem_filter, decide_eq_true_eq, not_and, not_lt]
    intro _
    omega
  · exact ResizeState.monotonic_onAck st s2 hst

/-- Witness of C7: `send(1,(800,600))`, `send(2,(820,600))`, `ack(2)`, `ack(1)` ends
with committed size `(820,600)`. -/
theorem resize_commit_never_regresses_witness :
    (((((ResizeState.initial ⟨0, 0⟩).sendWindowSize false 1 ⟨800, 600⟩).sendWindowSize false 2
        ⟨820, 600⟩).onAck 2).onAck 1).m_vReportedSize = ⟨820, 600⟩ :=
  (resize_commit_never_regresses
    (((ResizeState.initial ⟨0, 0⟩).sendWindowSize false 1 ⟨800, 600⟩).sendWindowSize false 2
      ⟨820, 600⟩)
    (ResizeState.monotonic_sendWindowSize _ false 2 ⟨820, 600⟩
      (ResizeState.monotonic_sendWindowSize _ false 1 ⟨800, 600⟩
        (ResizeState.monotonic_initial ⟨0, 0⟩) (by simp [ResizeState.Fresh, ResizeState.initial]))
      (by simp [ResizeState.Fresh, ResizeState.initial, ResizeState.sendWindowSize]))
    1 2 ⟨800, 600⟩ ⟨820, 600⟩ (by decide) (by decide)).2.2.2.2.2.1

/-! ## Groups -/

namespace Windows

/-- The operations are defined on all the calls that the spec describes:
`createGroup` on an existing window in no group, `insertWindowToGroup` of an
existing window in no group after an existing window in a group, and
`destroyGroup` on an existing window. -/
theorem operations_defined (ws : Windows) (self pWindow : Nat) :
    ((ws.createGroup self).isSome = true ↔ self < ws.count ∧ ws.nextOf self = none) ∧
    ((ws.insertWindowToGroup self pWindow).isSome = true ↔
      self < ws.count ∧ pWindow < ws.count ∧ ws.nextOf pWindow = none ∧
        ws.nextOf self ≠ none) ∧
    ((ws.destroyGroup self).isSome = true ↔ self < ws.count) := by
  refine ⟨?_, ?_, ?_⟩
  · unfold createGroup
    split <;> simp [*]
  · unfold insertWindowToGroup
    split
    · rename_i hd
      simp only
      split <;> simp [hd]
    · rename_i hd
      simp [hd]
  · unfold destroyGroup
    split <;> simp [*]

end Windows

namespace CVirtualKeyboardV1Resource

/-- Effect of a key request on a keyboard with a keymap. -/
theorem setKey_with_keymap (kb : CVirtualKeyboardV1Resource) (h : kb.hasKeymap = true)
    (timeMs key state : Nat) :
    kb.setKey timeMs key state =
      ({ kb with pressed :=
            if state = 0 then kb.pressed.filter (fun p => p != key)
            else if key ∈ kb.pressed then kb.pressed else kb.pressed ++ [key] },
        [Effect.key { timeMs := timeMs, keycode := key, state := state }]) := by
  obtain ⟨res, nm, hk, pr⟩ := kb
  simp only at h
  subst h
  unfold setKey
  by_cases hs : state = 0 <;> by_cases hc : key ∈ pr
  · simp [hs, hc]
  · have hf : pr.filter (fun p => p != key) = pr := by
      rw [List.filter_eq_self]
      intro a ha
      simp only [bne_iff_ne, ne_eq]
      intro e
      exact hc (e ▸ ha)
    simp [hs, hc, hf]
  · simp [hs, hc]
  · simp [hs, hc]

/-- Every handler keeps the pressed keys pairwise distinct. -/
theorem nodup_handle (kb : CVirtualKeyboardV1Resource) (r : Request)
    (hn : kb.pressed.Nodup) : (kb.handle r).1.pressed.Nodup := by
  cases r with
  | key timeMs key state =>
    simp only [handle]
    cases hk : kb.hasKeymap with
    | false => simpa [setKey, hk] using hn
    | true =>
      rw [setKey_with_keymap kb hk]
      simp only
      split
      · exact hn.filter _
      · split
        · exact hn
        · rename_i hc
          rw [List.nodup_append]
          refine ⟨hn, List.nodup_singleton _, ?_⟩
          intro a ha hb
          simp only [List.mem_singleton] at hb
          exact hc (hb ▸ ha)
  | modifiers depressed latched locked group =>
    simp only [handle, setModifiers]
    split <;> exact hn
  | keymap calls fmt fd len =>
    simp only [handle, setKeymap]
    split
    · exact hn
    · split
      · exact hn
      · split <;> exact hn
  | releasePressed clock =>
    simp [handle, releasePressed]

/-- Every sequence of handlers keeps the pressed keys pairwise distinct. -/
theorem nodup_handleAll (reqs : List Request) :
    ∀ kb : CVirtualKeyboardV1Resource, kb.pressed.Nodup → (kb.handleAll reqs).1.pressed.Nodup := by
  induction reqs with
  | nil => intro kb hn; exact hn
  | cons r rest ih =>
    intro kb hn
    exact ih _ (nodup_handle kb r hn)

end CVirtualKeyboardV1Resource

/-- C12: for a key request (time, keycode `key`, `state`) handled by a keyboard
whose keymap is set, afterwards `key` is in the pressed list if and only if
`state` is non-zero, the other keycodes of the list are the same and in the
same order, and exactly one key event carrying the time, keycode and state of
the request has been emitted, whether or not `key` was pressed before. -/
theorem setKey_updates_pressed (kb : CVirtualKeyboardV1Resource) (h : kb.hasKeymap = true)
    (timeMs key state : Nat) :
    (key ∈ (kb.setKey timeMs key state).1.pressed ↔ state ≠ 0) ∧
    (kb.setKey timeMs key state).1.pressed.filter (fun p => p != key)
      = kb.pressed.filter (fun p => p != key) ∧
    (∀ p, p ≠ key → (p ∈ (kb.setKey timeMs key state).1.pressed ↔ p ∈ kb.pressed)) ∧
    (kb.setKey timeMs key state).2
      = [Effect.key { timeMs := timeMs, keycode := key, state := state }] ∧
    (kb.setKey timeMs key state).1.hasKeymap = true := by
  rw [CVirtualKeyboardV1Resource.setKey_with_keymap kb h]
  have hfilter : (if state = 0 then kb.pressed.filter (fun p => p != key)
      else if key ∈ kb.pressed then kb.pressed else kb.pressed ++ [key]).filter
        (fun p => p != key) = kb.pressed.filter (fun p => p != key) := by
    split
    · simp [List.filter_filter]
    · split
      · rfl
      · simp [List.filter_append]
  refine ⟨?_, hfilter, ?_, rfl, h⟩
  · simp only
    split
    · rename_i hs
      simp [hs]
    · rename_i hs
      split
      · rename_i hc
        simp [hs, hc]
      · simp [hs]
  · intro p hp
    simp only
    have h1 := congrArg (fun l => decide (p ∈ l)) hfilter
    simp only [List.mem_filter, bne_iff_ne, ne_eq, hp, not_false_eq_true, and_true,
      decide_eq_decide] at h1
    exact h1

/-- C13: a new keyboard has an empty pressed list and, after every finite
sequence of key, modifiers and keymap requests and `releasePressed` calls, the
entries of `pressed` are pairwise distinct. -/
theorem pressed_never_repeats (resource_ : Option Nat)
    (reqs : List CVirtualKeyboardV1Resource.Request) :
    (CVirtualKeyboardV1Resource.create resource_).pressed = [] ∧
    ((CVirtualKeyboardV1Resource.create resource_).handleAll reqs).1.pressed.Nodup := by
  have h0 : (CVirtualKeyboardV1Resource.create resource_).pressed = [] := by
    unfold CVirtualKeyboardV1Resource.create
    simp only
    split <;> rfl
  refine ⟨h0, CVirtualKeyboardV1Resource.nodup_handleAll reqs _ ?_⟩
  rw [h0]
  exact List.nodup_nil


/-! ## Virtual keyboard: release and destruction -/

namespace CVirtualKeyboardV1Resource

/-- The release events follow the list: event number `i` is the release of entry
number `i`. -/
theorem releaseEvents_getElem? (clock : Nat → Nat) (l : List Nat) :
    ∀ j i, (releaseEvents clock j l)[i]? =
      (l[i]?).map (fun q => Effect.key
        { timeMs := clock (j + i), keycode := q, state := WL_KEYBOARD_KEY_STATE_RELEASED }) := by
  induction l with
  | nil => intro j i; simp [releaseEvents]
  | cons p rest ih =>
    intro j i
    cases i with
    | zero => simp [releaseEvents]
    | succ i =>
      simp only [releaseEvents, List.getElem?_cons_succ]
      rw [ih (j + 1) i]
      have e : j + 1 + i = j + (i + 1) := by omega
      rw [e]

/-- There are as many release events as entries. -/
theorem releaseEvents_length (clock : Nat → Nat) (l : List Nat) :
    ∀ j, (releaseEvents clock j l).length = l.length := by
  induction l with
  | nil => intro j; rfl
  | cons p rest ih => intro j; simp [releaseEvents, ih]

end CVirtualKeyboardV1Resource

/-- Reading a concatenation of emissions. -/
theorem heldFrom_append (k : Nat) (held : Bool) (t1 t2 : List Effect) :
    heldFrom k held (t1 ++ t2) = heldFrom k (heldFrom k held t1) t2 := by
  unfold heldFrom
  rw [List.foldl_append]

/-- After the release events of a list, exactly the keys of the list are
released; the others are as before. -/
theorem heldFrom_releaseEvents (k : Nat) (clock : Nat → Nat) (l : List Nat) :
    ∀ j held, heldFrom k held (CVirtualKeyboardV1Resource.releaseEvents clock j l)
      = if k ∈ l then false else held := by
  induction l with
  | nil => intro j held; rfl
  | cons p rest ih =>
    intro j held
    have hstep : heldFrom k held (CVirtualKeyboardV1Resource.releaseEvents clock j (p :: rest))
        = heldFrom k (if p = k then false else held)
            (CVirtualKeyboardV1Resource.releaseEvents clock (j + 1) rest) := by
      simp [heldFrom, CVirtualKeyboardV1Resource.releaseEvents, WL_KEYBOARD_KEY_STATE_RELEASED]
    rw [hstep, ih]
    by_cases h1 : k ∈ rest
    · simp [h1]
    · by_cases h2 : p = k
      · simp [h1, h2]
      · have h3 : ¬ k = p := fun e => h2 e.symm
        simp [h1, h2, h3]

/-- Destroy events do not change what is held. -/
theorem heldFrom_replicate_destroy (k : Nat) (n : Nat) :
    ∀ held, heldFrom k held (List.replicate n Effect.destroy) = held := by
  induction n with
  | zero => intro held; rfl
  | succ n ih =>
    intro held
    rw [List.replicate_succ]
    have : heldFrom k held (Effect.destroy :: List.replicate n Effect.destroy)
        = heldFrom k held (List.replicate n Effect.destroy) := rfl
    rw [this, ih]

namespace CVirtualKeyboardV1Resource

/-- After every handler, the keys held according to the emitted events are the
keys of the pressed list. -/
theorem held_handle (k : Nat) (kb : CVirtualKeyboardV1Resource) (r : Request) :
    heldFrom k (kb.pressed.contains k) (kb.handle r).2
      = (kb.handle r).1.pressed.contains k := by
  cases r with
  | key timeMs key state =>
    simp only [handle]
    cases hk : kb.hasKeymap with
    | false => simp [setKey, hk, heldFrom]
    | true =>
      rw [setKey_with_keymap kb hk]
      by_cases hkey : key = k
      · subst hkey
        by_cases hs : state = 0
        · simp [heldFrom, hs]
        · by_cases hc : key ∈ kb.pressed
          · simp [heldFrom, hs, hc]
          · simp [heldFrom, hs, hc]
      · have hkey2 : ¬ k = key := fun e => hkey e.symm
        by_cases hs : state = 0
        · simp [heldFrom, hs, hkey, hkey2]
        · by_cases hc : key ∈ kb.pressed
          · simp [heldFrom, hs, hc, hkey]
          · simp [heldFrom, hs, hc, hkey, hkey2]
  | modifiers depressed latched locked group =>
    simp only [handle, setModifiers]
    split <;> simp [heldFrom]
  | keymap calls fmt fd len =>
    simp only [handle, setKeymap]
    cases h1 : calls.xkb_context_new with
    | none => simp [heldFrom]
    | some ctx =>
      cases h2 : calls.mmap fd len with
      | none => simp [heldFrom]
      | some data =>
        cases h3 : calls.xkb_keymap_new_from_string ctx data with
        | none => simp [heldFrom, h3]
        | some km => simp [heldFrom, h3]
  | releasePressed clock =>
    simp only [handle, releasePressed]
    rw [heldFrom_releaseEvents]
    by_cases h : k ∈ kb.pressed <;> simp [h]

/-- After every sequence of handlers, the keys held according to the emitted
events are the keys of the pressed list. -/
theorem held_handleAll (k : Nat) (reqs : List Request) :
    ∀ kb : CVirtualKeyboardV1Resource,
      heldFrom k (kb.pressed.contains k) (kb.handleAll reqs).2
        = (kb.handleAll reqs).1.pressed.contains k := by
  induction reqs with
  | nil => intro kb; rfl
  | cons r rest ih =>
    intro kb
    simp only [handleAll]
    rw [heldFrom_append, held_handle, ih]

end CVirtualKeyboardV1Resource

/-- C14: `releasePressed` emits, for each entry of the pressed list and in list
order, one key event with that keycode and state `RELEASED`, and nothing else,
and leaves the list empty, so that a second call emits nothing. The destroy
handler emits these release events before any destroy event and leaves nothing
pressed: after it, no keycode is held according to the emitted events, also
over the whole life of a keyboard (any sequence of requests from its creation
followed by its destruction), where the entries of the list are pairwise
distinct, so that each keycode is released once. -/
theorem releasePressed_releases_all (kb : CVirtualKeyboardV1Resource) (clock clock2 : Nat → Nat)
    (p : CVirtualKeyboardProtocol) (lastOwner : Bool) :
    (∀ i, (kb.releasePressed clock).2[i]? =
      (kb.pressed[i]?).map (fun q => Effect.key
        { timeMs := clock i, keycode := q, state := WL_KEYBOARD_KEY_STATE_RELEASED })) ∧
    (kb.releasePressed clock).2.length = kb.pressed.length ∧
    (kb.releasePressed clock).1.pressed = [] ∧
    ((kb.releasePressed clock).1.releasePressed clock2).2 = [] ∧
    (∃ n, 0 < n ∧ (p.onKeyboardDestroy kb clock lastOwner).2.2
      = (kb.releasePressed clock).2 ++ List.replicate n Effect.destroy) ∧
    (p.onKeyboardDestroy kb clock lastOwner).2.1.pressed = [] ∧
    (∀ k held, heldFrom k held (p.onKeyboardDestroy kb clock lastOwner).2.2
      = if k ∈ kb.pressed then false else held) ∧
    (∀ resource_ reqs k, kb = ((CVirtualKeyboardV1Resource.create resource_).handleAll reqs).1 →
      kb.pressed.Nodup ∧
      heldFrom k false (((CVirtualKeyboardV1Resource.create resource_).handleAll reqs).2
        ++ (p.onKeyboardDestroy kb clock lastOwner).2.2) = false) := by
  have hout : ∃ n, 0 < n ∧ (p.onKeyboardDestroy kb clock lastOwner).2.2
      = (kb.releasePressed clock).2 ++ List.replicate n Effect.destroy := by
    cases lastOwner with
    | false => exact ⟨1, by decide, by simp [CVirtualKeyboardProtocol.onKeyboardDestroy]⟩
    | true =>
      exact ⟨2, by decide, by
        simp [CVirtualKeyboardProtocol.onKeyboardDestroy, List.replicate]⟩
  have hheld : ∀ k held, heldFrom k held (p.onKeyboardDestroy kb clock lastOwner).2.2
      = if k ∈ kb.pressed then false else held := by
    intro k held
    obtain ⟨n, _, hn⟩ := hout
    rw [hn, heldFrom_append, heldFrom_replicate_destroy]
    exact heldFrom_releaseEvents k clock kb.pressed 0 held
  refine ⟨?_, ?_, rfl, rfl, hout, rfl, ?_, ?_⟩
  · intro i
    have := CVirtualKeyboardV1Resource.releaseEvents_getElem? clock kb.pressed 0 i
    simpa [CVirtualKeyboardV1Resource.releasePressed] using this
  · exact CVirtualKeyboardV1Resource.releaseEvents_length clock kb.pressed 0
  · exact hheld
  · intro resource_ reqs k hkb
    have hinit : (CVirtualKeyboardV1Resource.create resource_).pressed = [] := by
      unfold CVirtualKeyboardV1Resource.create
      simp only
      split <;> rfl
    refine ⟨?_, ?_⟩
    · rw [hkb]
      apply CVirtualKeyboardV1Resource.nodup_handleAll
      rw [hinit]
      exact List.nodup_nil
    rw [heldFrom_append]
    have hrun := CVirtualKeyboardV1Resource.held_handleAll k reqs
      (CVirtualKeyboardV1Resource.create resource_)
    rw [hinit] at hrun
    have h0 : ([] : List Nat).contains k = false := rfl
    rw [h0] at hrun
    rw [hrun, ← hkb, hheld]
    by_cases h : k ∈ kb.pressed <;> simp [h]

/-- Witness of C12: releasing key 31 on a keyboard with keys 30 and 31 pressed. -/
theorem setKey_updates_pressed_witness :
    (31 ∈ (({ resource := some 7, name := "hl-virtual-keyboard", hasKeymap := true,
              pressed := [30, 31] } : CVirtualKeyboardV1Resource).setKey 100 31 0).1.pressed
        ↔ 0 ≠ 0) ∧
    (({ resource := some 7, name := "hl-virtual-keyboard", hasKeymap := true,
        pressed := [30, 31] } : CVirtualKeyboardV1Resource).setKey 100 31 0).2
      = [Effect.key { timeMs := 100, keycode := 31, state := 0 }] :=
  ⟨(setKey_updates_pressed
      { resource := some 7, name := "hl-virtual-keyboard", hasKeymap := true, pressed := [30, 31] }
      rfl 100 31 0).1,
   (setKey_updates_pressed
      { resource := some 7, name := "hl-virtual-keyboard", hasKeymap := true, pressed := [30, 31] }
      rfl 100 31 0).2.2.2.1⟩

/-- Witness of C14: a keyboard on which keys 30 and 31 were pressed is destroyed;
key 30 is not held afterwards. -/
theorem releasePressed_releases_all_witness :
    heldFrom 30 false
      (((CVirtualKeyboardV1Resource.create (some 7)).handleAll
          [CVirtualKeyboardV1Resource.Request.keymap
              { xkb_context_new := some 1, mmap := fun _ _ => some "xkb_keymap",
                xkb_keymap_new_from_string := fun _ _ => some 5 } 1 3 64,
            CVirtualKeyboardV1Resource.Request.key 1 30 1,
            CVirtualKeyboardV1Resource.Request.key 2 31 1]).2
        ++ (({ m_vKeyboards := [] } : CVirtualKeyboardProtocol).onKeyboardDestroy
            ((CVirtualKeyboardV1Resource.create (some 7)).handleAll
              [CVirtualKeyboardV1Resource.Request.keymap
                  { xkb_context_new := some 1, mmap := fun _ _ => some "xkb_keymap",
                    xkb_keymap_new_from_string := fun _ _ => some 5 } 1 3 64,
                CVirtualKeyboardV1Resource.Request.key 1 30 1,
                CVirtualKeyboardV1Resource.Request.key 2 31 1]).1
            (fun _ => 9) true).2.2) = false :=
  ((releasePressed_releases_all _ (fun _ => 9) (fun _ => 9) { m_vKeyboards := [] }
    true).2.2.2.2.2.2.2 (some 7) _ 30 rfl).2


/-! ## Window properties by name -/

namespace NWindowProperties

/-- A successful lookup returns an entry of the table. -/
theorem lookup_mem {B : Type} (name : String) (b : B) (table : List (String × B))
    (h : table.lookup name = some b) : (name, b) ∈ table := by
  induction table with
  | nil => simp [List.lookup] at h
  | cons e rest ih =>
    obtain ⟨n, a⟩ := e
    by_cases hn : name = n
    · subst hn
      simp [List.lookup] at h
      subst h
      exact List.mem_cons_self _ _
    · have hne : (name == n) = false := by simpa using hn
      simp only [List.lookup, hne] at h
      exact List.mem_cons_of_mem _ (ih h)

/-- Every accessor of the boolean table returns the member of the given window
that the name of the entry stands for. -/
theorem bool_entry (obj : WindowObject) (e : String × (PHLWINDOW → Option (MemberRef BoolMember)))
    (he : e ∈ boolWindowProperties) :
    ∃ m, e.2 (some obj) = some { window := obj.addr, member := m } ∧ e.1 = m.propertyName := by
  simp only [boolWindowProperties, List.mem_cons, List.mem_singleton, List.not_mem_nil,
    or_false] at he
  rcases he with rfl | rfl | rfl | rfl | rfl | rfl | rfl | rfl | rfl | rfl | rfl | rfl | rfl | rfl | rfl | rfl | rfl | rfl | rfl | rfl | rfl <;> exact ⟨_, rfl, by decide⟩

/-- Every accessor of the integer table returns the member of the given window
with the lower-cased name of the entry. -/
theorem int_entry (obj : WindowObject) (e : String × (PHLWINDOW → Option (MemberRef IntMember)))
    (he : e ∈ intWindowProperties) :
    ∃ m, e.2 (some obj) = some { window := obj.addr, member := m } ∧ e.1 = lowerCase m.ident := by
  simp only [intWindowProperties, List.mem_cons, List.mem_singleton, List.not_mem_nil,
    or_false] at he
  rcases he with rfl | rfl <;> exact ⟨_, rfl, by decide⟩

/-- Every accessor of the float table returns the member of the given window
with the lower-cased name of the entry. -/
theorem float_entry (obj : WindowObject)
    (e : String × (PHLWINDOW → Option (MemberRef FloatMember)))
    (he : e ∈ floatWindowProperties) :
    ∃ m, e.2 (some obj) = some { window := obj.addr, member := m } ∧ e.1 = lowerCase m.ident := by
  simp only [floatWindowProperties, List.mem_cons, List.mem_singleton, List.not_mem_nil,
    or_false] at he
  rcases he with rfl | rfl | rfl <;> exact ⟨_, rfl, by decide⟩

/-- A name that resolves on a window is the name of an entry whose accessor
returns the resolved member. -/
theorem resolve_entry {M : Type} (table : List (String × (PHLWINDOW → Option (MemberRef M))))
    (name : String) (w : PHLWINDOW) (r : MemberRef M) (h : resolve table name w = some r) :
    ∃ e ∈ table, e.1 = name ∧ e.2 w = some r := by
  unfold resolve at h
  cases hl : table.lookup name with
  | none => rw [hl] at h; cases h
  | some accessor =>
    rw [hl] at h
    exact ⟨(name, accessor), lookup_mem name accessor table hl, rfl, h⟩

/-- In a table whose accessors return the member named by their entry, two
names that resolve to the same member are the same name. -/
theorem resolve_injective {M : Type} (table : List (String × (PHLWINDOW → Option (MemberRef M))))
    (nameOf : M → String) (obj : WindowObject)
    (hentry : ∀ e ∈ table, ∃ m, e.2 (some obj) = some { window := obj.addr, member := m } ∧
      e.1 = nameOf m)
    (n1 n2 : String) (r : MemberRef M) (h1 : resolve table n1 (some obj) = some r)
    (h2 : resolve table n2 (some obj) = some r) :
    n1 = n2 ∧ r.window = obj.addr ∧ n1 = nameOf r.member := by
  obtain ⟨e1, he1, hn1, hr1⟩ := resolve_entry table n1 _ r h1
  obtain ⟨e2, he2, hn2, hr2⟩ := resolve_entry table n2 _ r h2
  obtain ⟨m1, hm1, hname1⟩ := hentry e1 he1
  obtain ⟨m2, hm2, hname2⟩ := hentry e2 he2
  rw [hr1] at hm1
  rw [hr2] at hm2
  simp only [Option.some.injEq] at hm1 hm2
  subst hm1
  simp only [MemberRef.mk.injEq, true_and] at hm2
  refine ⟨?_, rfl, ?_⟩
  · rw [← hn1, ← hn2, hname1, hname2, hm2]
  · rw [← hn1, hname1]

end NWindowProperties

open NWindowProperties in
/-- C11: for every window, the 21 names of `boolWindowProperties` are pairwise
distinct and resolve to 21 pairwise distinct boolean members of the
`m_sWindowData` of that window; the names of `intWindowProperties` resolve to
its `rounding` and `borderSize` and those of `floatWindowProperties` to its
`roundingPower`, `scrollMouse` and `scrollTouchpad`; in each table two names
that resolve to the same member are equal, every name resolves to the member
with the same lower-cased name, except `forcergbx` (member `RGBX`) and
`immediate` (member `tearing`), and the member returned belongs to the window
that was given. -/
theorem property_lookup_unambiguous (obj : WindowObject) :
    ((boolWindowProperties.map Prod.fst).length = 21 ∧
      (boolWindowProperties.map Prod.fst).Nodup ∧
      (boolWindowProperties.map (fun e => e.2 (some obj))).Nodup ∧
      (∀ e ∈ boolWindowProperties,
        resolve boolWindowProperties e.1 (some obj) = e.2 (some obj) ∧
        ∃ m, e.2 (some obj) = some { window := obj.addr, member := m } ∧
          e.1 = m.propertyName) ∧
      (∀ n1 n2 r, resolve boolWindowProperties n1 (some obj) = some r →
        resolve boolWindowProperties n2 (some obj) = some r →
        n1 = n2 ∧ r.window = obj.addr ∧ n1 = r.member.propertyName) ∧
      resolve boolWindowProperties "forcergbx" (some obj)
        = some { window := obj.addr, member := BoolMember.RGBX } ∧
      resolve boolWindowProperties "immediate" (some obj)
        = some { window := obj.addr, member := BoolMember.tearing }) ∧
    (intWindowProperties.map Prod.fst = ["rounding", "bordersize"] ∧
      resolve intWindowProperties "rounding" (some obj)
        = some { window := obj.addr, member := IntMember.rounding } ∧
      resolve intWindowProperties "bordersize" (some obj)
        = some { window := obj.addr, member := IntMember.borderSize } ∧
      (∀ n1 n2 r, resolve intWindowProperties n1 (some obj) = some r →
        resolve intWindowProperties n2 (some obj) = some r →
        n1 = n2 ∧ r.window = obj.addr ∧ n1 = lowerCase r.member.ident)) ∧
    (floatWindowProperties.map Prod.fst = ["roundingpower", "scrollmouse", "scrolltouchpad"] ∧
      resolve floatWindowProperties "roundingpower" (some obj)
        = some { window := obj.addr, member := FloatMember.roundingPower } ∧
      resolve floatWindowProperties "scrollmouse" (some obj)
        = some { window := obj.addr, member := FloatMember.scrollMouse } ∧
      resolve floatWindowProperties "scrolltouchpad" (some obj)
        = some { window := obj.addr, member := FloatMember.scrollTouchpad } ∧
      (∀ n1 n2 r, resolve floatWindowProperties n1 (some obj) = some r →
        resolve floatWindowProperties n2 (some obj) = some r →
        n1 = n2 ∧ r.window = obj.addr ∧ n1 = lowerCase r.member.ident)) := by
  refine ⟨⟨rfl, by decide, ?_, ?_, ?_, rfl, rfl⟩, ⟨rfl, rfl, rfl, ?_⟩, ⟨rfl, rfl, rfl, rfl, ?_⟩⟩
  · have hlist : boolWindowProperties.map (fun e => e.2 (some obj)) =
        ([BoolMember.allowsInput, BoolMember.dimAround, BoolMember.decorate,
          BoolMember.focusOnActivate, BoolMember.keepAspectRatio, BoolMember.nearestNeighbor,
          BoolMember.noAnim, BoolMember.noBlur, BoolMember.noBorder, BoolMember.noDim,
          BoolMember.noFocus, BoolMember.noMaxSize, BoolMember.noRounding, BoolMember.noShadow,
          BoolMember.noShortcutsInhibit, BoolMember.opaque_, BoolMember.RGBX,
          BoolMember.syncFullscreen, BoolMember.tearing, BoolMember.xray,
          BoolMember.noFollowMouse].map
          (fun m => some ({ window := obj.addr, member := m } : MemberRef BoolMember))) := rfl
    rw [hlist]
    apply List.Nodup.map
    · intro a b hab
      simpa using hab
    · decide
  · intro e he
    refine ⟨?_, bool_entry obj e he⟩
    simp only [boolWindowProperties, List.mem_cons, List.mem_singleton, List.not_mem_nil,
      or_false] at he
    rcases he with rfl | rfl | rfl | rfl | rfl | rfl | rfl | rfl | rfl | rfl | rfl | rfl | rfl | rfl | rfl | rfl | rfl | rfl | rfl | rfl | rfl <;> rfl
  · exact resolve_injective boolWindowProperties BoolMember.propertyName obj (bool_entry obj)
  · exact resolve_injective intWindowProperties (fun m => lowerCase m.ident) obj (int_entry obj)
  · exact resolve_injective floatWindowProperties (fun m => lowerCase m.ident) obj
      (float_entry obj)

open NWindowProperties in
/-- Witness of C11: on a window at address 4096 the name `opaque` resolves to the
member `opaque` of that window, and is the documented name of that member. -/
theorem property_lookup_unambiguous_witness :
    resolve boolWindowProperties "opaque" (some { addr := 4096, window := {} })
      = some { window := 4096, member := BoolMember.opaque_ } ∧
    "opaque" = BoolMember.propertyName BoolMember.opaque_ :=
  ⟨rfl,
   ((property_lookup_unambiguous { addr := 4096, window := {} }).1.2.2.2.2.1
      "opaque" "opaque" { window := 4096, member := BoolMember.opaque_ } rfl rfl).2.2⟩

end Hyprland
